import Mathlib

/-!
Shallow embedding of the MERN product-transaction service
(`src/server/src/models.js` and `src/server/src/server.js`).

The store is modelled as a `List Transaction` in natural (insertion) order;
Mongo queries become `List.filter` / `List.countP`; JS `Date` values become
the `DateTime` structure below ordered lexicographically; JS numbers used as
prices become `Rat` (prices are compared and summed exactly, which is faithful
for the integral and decimal values the service handles); a document with no
`price` field is `Option.none`.  The current calendar year, read in the source
via `new Date().getFullYear()`, is passed explicitly as a parameter `y`.
-/

/-- A calendar date-time as JS `Date` exposes it: year, zero-based month
(0 = january .. 11 = december), 1-based day of month, and the time of day
collapsed to milliseconds since local midnight.  JS `Date` comparison is
chronological, i.e. lexicographic in these fields. -/
structure DateTime where
  year : Int
  month : Nat
  day : Nat
  msOfDay : Nat
deriving DecidableEq, Repr

/-- JS `d1 <= d2` on dates: lexicographic comparison. -/
def DateTime.leb (a b : DateTime) : Bool :=
  decide (a.year < b.year ∨ (a.year = b.year ∧
    (a.month < b.month ∨ (a.month = b.month ∧
      (a.day < b.day ∨ (a.day = b.day ∧ a.msOfDay ≤ b.msOfDay))))))

/-- JS `d1 < d2` on dates: strict lexicographic comparison. -/
def DateTime.ltb (a b : DateTime) : Bool :=
  decide (a.year < b.year ∨ (a.year = b.year ∧
    (a.month < b.month ∨ (a.month = b.month ∧
      (a.day < b.day ∨ (a.day = b.day ∧ a.msOfDay < b.msOfDay))))))

/-- The Mongo filter `{ dateOfSale: { $gte: s, $lte: e } }` applied to a date. -/
def inDateRange (s e d : DateTime) : Bool :=
  DateTime.leb s d && DateTime.leb d e

/-- Gregorian leap-year rule, as implemented by the JS `Date` rollover. -/
def isLeapYear (y : Int) : Bool :=
  (y % 4 == 0 && y % 100 != 0) || y % 400 == 0

/-- Number of days of the zero-based month `m` of year `y`. -/
def daysInMonth (y : Int) (m : Nat) : Nat :=
  if m = 1 then (if isLeapYear y then 29 else 28)
  else if m = 3 ∨ m = 5 ∨ m = 8 ∨ m = 10 then 30
  else 31

/-- JS `new Date(y, mo, d)` at local midnight, for the arguments the source
uses: month argument `mo` in `0..12` (values ≥ 12 roll over into the next
year) and day argument `d = 1` (first day) or `d = 0` (JS day 0 denotes the
last day of the previous month). -/
def jsDate (y : Int) (mo : Nat) (d : Nat) : DateTime :=
  let y2 : Int := y + (mo / 12 : Nat)
  let m : Nat := mo % 12
  if d = 0 then
    if m = 0 then ⟨y2 - 1, 11, 31, 0⟩
    else ⟨y2, m - 1, daysInMonth y2 (m - 1), 0⟩
  else ⟨y2, m, d, 0⟩

/-- The `monthMap` object of `models.js`: full lowercase English month name to
zero-based index; any other key reads as JS `undefined`, i.e. `none`. -/
def monthMap (s : String) : Option Nat :=
  if s = "january" then some 0
  else if s = "february" then some 1
  else if s = "march" then some 2
  else if s = "april" then some 3
  else if s = "may" then some 4
  else if s = "june" then some 5
  else if s = "july" then some 6
  else if s = "august" then some 7
  else if s = "september" then some 8
  else if s = "october" then some 9
  else if s = "november" then some 10
  else if s = "december" then some 11
  else none

/-- The guard `if (!monthMap[month])` shared by every month-scoped handler.
JS `!x` is true for `undefined` (unknown month) but ALSO for the number `0`,
so the lookup result `0` (january) is rejected exactly like an unknown name. -/
def monthGuardRejects (month : String) : Bool :=
  match monthMap month with
  | none => true
  | some i => i == 0

/-- `getStartEndDate` of `models.js`: `startDate = new Date(year, idx, 1)`,
`endDate = new Date(year, idx + 1, 0)`.  An unknown month gives `none`
(in JS the lookup would yield `undefined` and the dates would be Invalid
Dates; the handlers only call this after their month guard). -/
def getStartEndDate (month : String) (y : Int) : Option (DateTime × DateTime) :=
  (monthMap month).map fun monthIndex =>
    (jsDate y monthIndex 1, jsDate y (monthIndex + 1) 0)

/-- A document of the `Transaction` collection.  `price` is `none` when the
document lacks a price field (the schema does not make it required). -/
structure Transaction where
  title : String
  description : String
  price : Option Rat
  dateOfSale : DateTime
  category : String
deriving DecidableEq, Repr

/-- JS `String.prototype.toLowerCase()` for the ASCII month names and
search strings the service handles: lower-case every character. -/
def toLowerStr (s : String) : String :=
  ⟨s.data.map Char.toLower⟩

/-- Substring containment on character lists: `needle` occurs contiguously
inside `hay`. -/
def listContains (hay needle : List Char) : Bool :=
  (List.range (hay.length + 1)).any fun i => needle.isPrefixOf (hay.drop i)

/-- The spec's description of the text branches of the `/transactions`
query: case-insensitive substring containment.  This is the behavior of the
code's regex test (below) exactly on search strings free of regex
metacharacters. -/
def containsCI (hay needle : String) : Bool :=
  listContains (toLowerStr hay).data (toLowerStr needle).data

/-- One step of regex matching: the pattern character `p` matches the text
character `c` (the `.` wildcard matches any character). -/
def regexCharMatches (p c : Char) : Bool :=
  if p = '.' then true else p == c

/-- Anchored regex match: the pattern (a sequence of literal characters and
`.` wildcards) matches a prefix of the text. -/
def regexMatchAt : List Char → List Char → Bool
  | [], _ => true
  | _ :: _, [] => false
  | p :: ps, c :: cs => regexCharMatches p c && regexMatchAt ps cs

/-- Unanchored regex search: the pattern matches somewhere in the text. -/
def regexTest (pattern str : List Char) : Bool :=
  (List.range (str.length + 1)).any fun i => regexMatchAt pattern (str.drop i)

/-- The Mongo filter `{ field: new RegExp(search, 'i') }` of the
`/transactions` handler: a case-insensitive regex test of the search string
against the field.  Modelled for patterns built from literal characters and
the `.` wildcard (the fragment the claims exercise); the `i` flag is
implemented by lowering both sides, which for ASCII is exact. -/
def regexTestCI (hay pattern : String) : Bool :=
  regexTest (toLowerStr pattern).data (toLowerStr hay).data

/-- The JS RegExp metacharacters. -/
def regexMetaChars : List Char :=
  ['.', '*', '+', '?', '^', '$', '(', ')', '[', ']', '\x7b', '\x7d', '|', '\\']

/-- Search strings on which the regex test is literal substring search: no
character is a regex metacharacter.  The check is made on the lowered
string the matcher consumes; lowering maps letters to letters and fixes
everything else, so this agrees with checking the original string. -/
def regexMetaFree (s : String) : Bool :=
  (toLowerStr s).data.all fun c => !(regexMetaChars.contains c)

/-- Value of a digit list read in base 10. -/
def digitsToNat (ds : List Char) : Nat :=
  ds.foldl (fun n c => n * 10 + (c.toNat - 48)) 0

/-- Exponent suffix of a JS float literal: an optional sign followed by
digits.  A malformed exponent (no digits) is ignored, as JS does. -/
def parseExp (cs : List Char) : Int :=
  let signAndRest : Int × List Char :=
    match cs with
    | '-' :: rest => (-1, rest)
    | '+' :: rest => (1, rest)
    | _ => (1, cs)
  let ds := signAndRest.2.takeWhile Char.isDigit
  if ds.isEmpty then 0 else signAndRest.1 * (digitsToNat ds : Int)

/-- JS `parseFloat` on decimal numerals: skip leading whitespace (the ASCII
whitespace the service's inputs use), then an optional sign, integer
digits, an optional fractional part, and an optional `e`/`E` exponent;
trailing garbage is ignored.  `none` models the `NaN` result when no digits
are found ("Infinity" is also mapped to `none`: an infinite price equality
matches nothing in a store of finite prices). -/
def parseFloat (s : String) : Option Rat :=
  let cs := s.data.dropWhile fun c => c ∈ [' ', '\t', '\n', '\r']
  let signAndRest : Rat × List Char :=
    match cs with
    | '-' :: rest => (-1, rest)
    | '+' :: rest => (1, rest)
    | _ => (1, cs)
  let intPart := signAndRest.2.takeWhile Char.isDigit
  let afterInt := signAndRest.2.dropWhile Char.isDigit
  let fracPart : List Char :=
    match afterInt with
    | '.' :: r => r.takeWhile Char.isDigit
    | _ => []
  let afterFrac : List Char :=
    match afterInt with
    | '.' :: r => r.dropWhile Char.isDigit
    | _ => afterInt
  let expVal : Int :=
    match afterFrac with
    | 'e' :: r => parseExp r
    | 'E' :: r => parseExp r
    | _ => 0
  if intPart.isEmpty ∧ fracPart.isEmpty then none
  else some (signAndRest.1 *
    ((digitsToNat intPart : Rat) + (digitsToNat fracPart : Rat) / (10 ^ fracPart.length)) *
    (10 : Rat) ^ expVal)

/-- The `$or` query of the `/transactions` handler: case-insensitive match on
`title`, or on `description`, or the price branch —
`{ price: search ? parseFloat(search) : { $exists: true } }` (JS treats the
empty string as falsy, so an empty search turns the price branch into a
field-existence test). -/
def matchesSearch (search : String) (t : Transaction) : Bool :=
  regexTestCI t.title search || regexTestCI t.description search ||
    (if search ≠ "" then
      match parseFloat search with
      | some q => t.price == some q
      | none => false
    else t.price.isSome)

/-- Response shape of the `/transactions` handler. -/
structure ListResult where
  transactions : List Transaction
  total : Nat
deriving DecidableEq, Repr

/-- The `/transactions` handler: `find(query).skip((page-1)*perPage)
.limit(perPage)` plus `countDocuments(query)`.  Query-string defaults are
`page = 1`, `perPage = 10`, `search = ""`; callers pass them explicitly here. -/
def listTransactions (page perPage : Nat) (search : String)
    (db : List Transaction) : ListResult :=
  let matched := db.filter (matchesSearch search)
  { transactions := (matched.drop ((page - 1) * perPage)).take perPage
    total := matched.length }

/-- The bucket label column of the `priceRanges` array of the bar-chart code. -/
def bucketLabels : List String :=
  ["0-100", "101-200", "201-300", "301-400", "401-500",
   "501-600", "601-700", "701-800", "801-900", "901-above"]

/-- The `priceRanges` array as initialized: every count zero. -/
def initialPriceRanges : List (String × Nat) :=
  bucketLabels.map fun r => (r, 0)

/-- The if/else chain of the bar-chart code selecting which bucket a price
increments.  A document with no price compares false on every `<=` in JS
(`undefined <= n` is false), so it falls through to the final `else`,
bucket 9. -/
def bucketIndex (price : Option Rat) : Nat :=
  match price with
  | none => 9
  | some p =>
    if p ≤ 100 then 0
    else if p ≤ 200 then 1
    else if p ≤ 300 then 2
    else if p ≤ 400 then 3
    else if p ≤ 500 then 4
    else if p ≤ 600 then 5
    else if p ≤ 700 then 6
    else if p ≤ 800 then 7
    else if p ≤ 900 then 8
    else 9

/-- `priceRanges[i].count++` on the bucket list. -/
def incrCount (rs : List (String × Nat)) (i : Nat) : List (String × Nat) :=
  match rs.get? i with
  | some rc => rs.set i (rc.1, rc.2 + 1)
  | none => rs

/-- The `transactions.forEach` loop of the bar-chart code: tally every
fetched transaction into its price bucket. -/
def tallyPrices (ts : List Transaction) : List (String × Nat) :=
  ts.foldl (fun rs t => incrCount rs (bucketIndex t.price)) initialPriceRanges

/-- The Mongo `$group: { _id: '$category', count: { $sum: 1 } }` stage of the
pie-chart code: one `(category, count)` pair per distinct category of the
input (order unspecified by Mongo; modelled via `List.dedup`). -/
def groupByCategory (ts : List Transaction) : List (String × Nat) :=
  ((ts.map Transaction.category).dedup).map fun c =>
    (c, ts.countP fun t => t.category == c)

/-- Response shape of the `/statistics/:month` handler. -/
structure Stats where
  totalSales : Rat
  soldItems : Nat
  notSoldItems : Nat
deriving DecidableEq, Repr

/-- The statistics queries shared verbatim by the `/statistics/:month`
handler and the `getStatistics` helper of the combined route: count in
`[startDate, endDate]`, aggregate price sum over the same range (an empty
match yields the empty aggregate array, read back as 0 through
`totalSales[0]?.total || 0`), and count strictly before `startDate`. -/
def statsQueries (s e : DateTime) (db : List Transaction) : Stats :=
  let soldItems := db.countP fun t => inDateRange s e t.dateOfSale
  let matched := db.filter fun t => inDateRange s e t.dateOfSale
  let totalSalesAgg : Option Rat :=
    if matched.isEmpty then none
    else some ((matched.map fun t => t.price.getD 0).sum)
  let notSoldItems := db.countP fun t => DateTime.ltb t.dateOfSale s
  { totalSales := totalSalesAgg.getD 0
    soldItems := soldItems
    notSoldItems := notSoldItems }

/-- The `GET /statistics/:month` handler: lowercase the path parameter,
run the falsy month guard, then the statistics queries.  The inner `none`
branch is unreachable once the guard has passed. -/
def statisticsHandler (monthParam : String) (y : Int)
    (db : List Transaction) : Except String Stats :=
  if monthGuardRejects (toLowerStr monthParam) then .error "Invalid month"
  else
    match getStartEndDate (toLowerStr monthParam) y with
    | some (s, e) => .ok (statsQueries s e db)
    | none => .error "Invalid month"

/-- The fetch-and-tally body shared verbatim by the `/bar-chart/:month`
handler and the `getBarChart` helper of the combined route. -/
def barChartQueries (s e : DateTime) (db : List Transaction) :
    List (String × Nat) :=
  tallyPrices (db.filter fun t => inDateRange s e t.dateOfSale)

/-- The `GET /bar-chart/:month` handler. -/
def barChartHandler (monthParam : String) (y : Int)
    (db : List Transaction) : Except String (List (String × Nat)) :=
  if monthGuardRejects (toLowerStr monthParam) then .error "Invalid month"
  else
    match getStartEndDate (toLowerStr monthParam) y with
    | some (s, e) => .ok (barChartQueries s e db)
    | none => .error "Invalid month"

/-- The `$match` then `$group` pipeline shared verbatim by the
`/pie-chart/:month` handler and the `getPieChart` helper. -/
def pieChartQueries (s e : DateTime) (db : List Transaction) :
    List (String × Nat) :=
  groupByCategory (db.filter fun t => inDateRange s e t.dateOfSale)

/-- The `GET /pie-chart/:month` handler. -/
def pieChartHandler (monthParam : String) (y : Int)
    (db : List Transaction) : Except String (List (String × Nat)) :=
  if monthGuardRejects (toLowerStr monthParam) then .error "Invalid month"
  else
    match getStartEndDate (toLowerStr monthParam) y with
    | some (s, e) => .ok (pieChartQueries s e db)
    | none => .error "Invalid month"

/-- The `getStatistics` helper of the combined route (no month guard of its
own; the combined handler guards before calling it). -/
def getStatistics (month : String) (y : Int) (db : List Transaction) :
    Option Stats :=
  (getStartEndDate month y).map fun se => statsQueries se.1 se.2 db

/-- The `getBarChart` helper of the combined route. -/
def getBarChart (month : String) (y : Int) (db : List Transaction) :
    Option (List (String × Nat)) :=
  (getStartEndDate month y).map fun se => barChartQueries se.1 se.2 db

/-- The `getPieChart` helper of the combined route. -/
def getPieChart (month : String) (y : Int) (db : List Transaction) :
    Option (List (String × Nat)) :=
  (getStartEndDate month y).map fun se => pieChartQueries se.1 se.2 db

/-- Response shape of the `/combined/:month` handler. -/
structure Combined where
  statistics : Stats
  barChart : List (String × Nat)
  pieChart : List (String × Nat)
deriving DecidableEq, Repr

/-- The `GET /combined/:month` handler: the falsy month guard, then the
three helpers in sequence; a failure of any helper aborts the response
(the catch block).  The helper lookups are `some` whenever the guard has
passed, so the fallback is unreachable. -/
def combinedHandler (monthParam : String) (y : Int)
    (db : List Transaction) : Except String Combined :=
  if monthGuardRejects (toLowerStr monthParam) then .error "Invalid month"
  else
    match getStatistics (toLowerStr monthParam) y db,
          getBarChart (toLowerStr monthParam) y db,
          getPieChart (toLowerStr monthParam) y db with
    | some st, some bc, some pc =>
        .ok { statistics := st, barChart := bc, pieChart := pc }
    | _, _, _ => .error "Failed to retrieve combined data"

/-- Observable startup events of `server.js`. -/
inductive StartupEvent where
  | connectAttempt
  | listen
  | logError
deriving DecidableEq, Repr

/-- The startup promise chain of `server.js`:
`mongoose.connect(...).then(() => app.listen(...)).catch(err => log)`.
The parameter is whether the initial store connection succeeds. -/
def startupTrace (connectOk : Bool) : List StartupEvent :=
  if connectOk then [.connectAttempt, .listen]
  else [.connectAttempt, .logError]

/-- A small concrete store used to exercise the theorems below: four March
2025 records (one lacking a price), and one record from December 2024. -/
def exampleDb : List Transaction :=
  [⟨"Shirt 150", "cotton", some 150, ⟨2025, 2, 5, 0⟩, "clothing"⟩,
   ⟨"Mug", "ceramic cup", some 50, ⟨2025, 2, 10, 3600000⟩, "kitchen"⟩,
   ⟨"Lamp", "desk lamp", some 950, ⟨2025, 2, 20, 0⟩, "home"⟩,
   ⟨"Old", "last year", some 20, ⟨2024, 11, 31, 0⟩, "misc"⟩,
   ⟨"NoPrice", "mystery", none, ⟨2025, 2, 15, 0⟩, "misc"⟩]

/-! Helper lemmas about the embedded definitions. -/

/-- A month name accepted by the guard has a nonzero index in the map. -/
theorem guard_passes (s : String) (h : monthGuardRejects s = false) :
    ∃ idx, monthMap s = some idx ∧ idx ≠ 0 := by
  unfold monthGuardRejects at h
  cases hm : monthMap s with
  | none => rw [hm] at h; cases h
  | some i =>
    rw [hm] at h
    exact ⟨i, rfl, by simpa using h⟩

/-- Peeling one conditional off an if-chain that produced a value. -/
theorem ite_some_elim {c : Prop} [Decidable c] {a idx : Nat}
    {rest : Option Nat} (h : (if c then some a else rest) = some idx) :
    idx = a ∨ rest = some idx := by
  by_cases hc : c
  · rw [if_pos hc] at h
    injection h with h
    exact Or.inl h.symm
  · rw [if_neg hc] at h
    exact Or.inr h

/-- Every index the month map produces is at most 11. -/
theorem monthMap_le (s : String) (idx : Nat) (h : monthMap s = some idx) :
    idx ≤ 11 := by
  unfold monthMap at h
  rcases ite_some_elim h with h | h
  · omega
  rcases ite_some_elim h with h | h
  · omega
  rcases ite_some_elim h with h | h
  · omega
  rcases ite_some_elim h with h | h
  · omega
  rcases ite_some_elim h with h | h
  · omega
  rcases ite_some_elim h with h | h
  · omega
  rcases ite_some_elim h with h | h
  · omega
  rcases ite_some_elim h with h | h
  · omega
  rcases ite_some_elim h with h | h
  · omega
  rcases ite_some_elim h with h | h
  · omega
  rcases ite_some_elim h with h | h
  · omega
  rcases ite_some_elim h with h | h
  · omega
  exact Option.noConfusion h

/-- `new Date(y, idx, 1)` for a month index `idx ≤ 11`: first day of the
month at midnight. -/
theorem jsDate_first (y : Int) (idx : Nat) (h : idx ≤ 11) :
    jsDate y idx 1 = ⟨y, idx, 1, 0⟩ := by
  unfold jsDate
  have hd : idx / 12 = 0 := Nat.div_eq_of_lt (by omega)
  have hm : idx % 12 = idx := Nat.mod_eq_of_lt (by omega)
  simp [hd, hm]

/-- `new Date(y, idx + 1, 0)` for a month index `idx ≤ 11`: last day of
month `idx` of the same year, at midnight (the december case rolls over to
the next year and back). -/
theorem jsDate_last (y : Int) (idx : Nat) (h : idx ≤ 11) :
    jsDate y (idx + 1) 0 = ⟨y, idx, daysInMonth y idx, 0⟩ := by
  unfold jsDate
  rcases Nat.lt_or_ge (idx + 1) 12 with h1 | h1
  · have hd : (idx + 1) / 12 = 0 := Nat.div_eq_of_lt h1
    have hm : (idx + 1) % 12 = idx + 1 := Nat.mod_eq_of_lt h1
    simp [hd, hm]
  · have h11 : idx = 11 := by omega
    subst h11
    norm_num [daysInMonth]

/-- Closed form of `getStartEndDate` on a mapped month: first day of the
month at midnight up to the last day of the same month at midnight. -/
theorem getStartEndDate_eq (s : String) (idx : Nat) (y : Int)
    (h : monthMap s = some idx) :
    getStartEndDate s y =
      some (⟨y, idx, 1, 0⟩, ⟨y, idx, daysInMonth y idx, 0⟩) := by
  have hle := monthMap_le s idx h
  unfold getStartEndDate
  rw [h, Option.map_some', jsDate_first y idx hle, jsDate_last y idx hle]

/-- Characterization of membership in the date interval the handlers build:
exactly the instants of the given month whose day is in range, with the last
day reached only at exactly midnight. -/
theorem inDateRange_iff (y : Int) (idx last : Nat) (d : DateTime) :
    inDateRange ⟨y, idx, 1, 0⟩ ⟨y, idx, last, 0⟩ d = true ↔
      (d.year = y ∧ d.month = idx ∧ 1 ≤ d.day ∧ d.day ≤ last ∧
        (d.day = last → d.msOfDay = 0)) := by
  simp only [inDateRange, DateTime.leb, Bool.and_eq_true, decide_eq_true_eq]
  omega

/-- Every price lands in one of the ten buckets. -/
theorem bucketIndex_lt (p : Option Rat) : bucketIndex p < 10 := by
  cases p with
  | none => decide
  | some q =>
    simp only [bucketIndex]
    split_ifs <;> omega

/-- `incrCount` leaves the label column unchanged. -/
theorem incrCount_map_fst (rs : List (String × Nat)) (i : Nat) :
    (incrCount rs i).map Prod.fst = rs.map Prod.fst := by
  unfold incrCount
  cases hget : rs.get? i with
  | none => rfl
  | some rc =>
    rw [List.get?_eq_getElem?] at hget
    have hi : i < rs.length := by
      by_contra hn
      rw [List.getElem?_eq_none (by omega)] at hget
      cases hget
    rw [List.map_set]
    apply List.ext_getElem?
    intro j
    by_cases hj : i = j
    · subst hj
      rw [List.getElem?_set_self (by simpa using hi)]
      rw [List.getElem?_map, hget]
      rfl
    · rw [List.getElem?_set_ne hj]

/-- `incrCount` preserves the number of buckets. -/
theorem incrCount_length (rs : List (String × Nat)) (i : Nat) :
    (incrCount rs i).length = rs.length := by
  unfold incrCount
  cases rs.get? i with
  | none => rfl
  | some rc => simp [List.length_set]

/-- Recursive unfolding of `incrCount` at the head bucket. -/
theorem incrCount_cons_zero (rc : String × Nat) (rs : List (String × Nat)) :
    incrCount (rc :: rs) 0 = (rc.1, rc.2 + 1) :: rs := rfl

/-- Recursive unfolding of `incrCount` past the head bucket. -/
theorem incrCount_cons_succ (rc : String × Nat) (rs : List (String × Nat))
    (n : Nat) : incrCount (rc :: rs) (n + 1) = rc :: incrCount rs n := by
  unfold incrCount
  rw [List.get?_cons_succ]
  cases h : rs.get? n with
  | none => rfl
  | some x => rfl

/-- Incrementing a bucket in range adds one to the count total. -/
theorem incrCount_sum (rs : List (String × Nat)) (i : Nat)
    (hi : i < rs.length) :
    ((incrCount rs i).map Prod.snd).sum = (rs.map Prod.snd).sum + 1 := by
  induction rs generalizing i with
  | nil => simp at hi
  | cons rc rs ih =>
    cases i with
    | zero =>
      rw [incrCount_cons_zero]
      simp
      omega
    | succ n =>
      have hn : n < rs.length := by simpa using hi
      rw [incrCount_cons_succ]
      simp only [List.map_cons, List.sum_cons, ih n hn]
      omega

/-- Incrementing bucket `i` changes only the count at position `i`. -/
theorem incrCount_getD_snd (rs : List (String × Nat)) (i j : Nat)
    (hi : i < rs.length) :
    ((incrCount rs i).map Prod.snd).getD j 0 =
      (rs.map Prod.snd).getD j 0 + (if i = j then 1 else 0) := by
  induction rs generalizing i j with
  | nil => simp at hi
  | cons rc rs ih =>
    cases i with
    | zero =>
      rw [incrCount_cons_zero]
      cases j with
      | zero => simp
      | succ m => simp
    | succ n =>
      have hn : n < rs.length := by simpa using hi
      rw [incrCount_cons_succ]
      cases j with
      | zero => simp
      | succ m =>
        simp only [List.map_cons, List.getD_cons_succ, ih n m hn]
        by_cases hnm : n = m
        · simp [hnm]
        · simp [hnm, fun h => hnm (Nat.succ_injective h)]

/-- The tally loop never touches the label column. -/
theorem tally_fold_fst (ts : List Transaction) (rs : List (String × Nat)) :
    ((ts.foldl (fun acc t => incrCount acc (bucketIndex t.price)) rs).map
      Prod.fst) = rs.map Prod.fst := by
  induction ts generalizing rs with
  | nil => rfl
  | cons t ts ih => rw [List.foldl_cons, ih, incrCount_map_fst]

/-- The tally loop preserves the number of buckets. -/
theorem tally_fold_length (ts : List Transaction) (rs : List (String × Nat)) :
    (ts.foldl (fun acc t => incrCount acc (bucketIndex t.price)) rs).length =
      rs.length := by
  induction ts generalizing rs with
  | nil => rfl
  | cons t ts ih => rw [List.foldl_cons, ih, incrCount_length]

/-- Each tallied transaction adds exactly one to the count total. -/
theorem tally_fold_sum (ts : List Transaction) (rs : List (String × Nat))
    (hlen : rs.length = 10) :
    ((ts.foldl (fun acc t => incrCount acc (bucketIndex t.price)) rs).map
      Prod.snd).sum = (rs.map Prod.snd).sum + ts.length := by
  induction ts generalizing rs with
  | nil => simp
  | cons t ts ih =>
    rw [List.foldl_cons, ih _ (by rw [incrCount_length]; exact hlen),
      incrCount_sum _ _ (by rw [hlen]; exact bucketIndex_lt _)]
    simp only [List.length_cons]
    omega

/-- After the tally loop, bucket `j` holds its initial count plus the number
of processed transactions whose price falls in bucket `j`. -/
theorem tally_fold_getD (ts : List Transaction) (rs : List (String × Nat))
    (j : Nat) (hlen : rs.length = 10) :
    ((ts.foldl (fun acc t => incrCount acc (bucketIndex t.price)) rs).map
      Prod.snd).getD j 0 =
      (rs.map Prod.snd).getD j 0 +
        ts.countP (fun t => bucketIndex t.price == j) := by
  induction ts generalizing rs with
  | nil => simp
  | cons t ts ih =>
    rw [List.foldl_cons, ih _ (by rw [incrCount_length]; exact hlen),
      incrCount_getD_snd _ _ _ (by rw [hlen]; exact bucketIndex_lt _),
      List.countP_cons]
    by_cases hb : bucketIndex t.price = j
    · simp [hb]
      omega
    · simp [hb]

/-- The pie-chart group counts add up to the number of grouped records. -/
theorem groupByCategory_sum (ts : List Transaction) :
    ((groupByCategory ts).map Prod.snd).sum = ts.length := by
  unfold groupByCategory
  rw [List.map_map]
  have hcomp : (Prod.snd ∘ fun c => (c, ts.countP fun t => t.category == c)) =
      fun c => ts.countP fun t => t.category == c := rfl
  rw [hcomp]
  have hcount : ∀ c, ts.countP (fun t => t.category == c) =
      (ts.map Transaction.category).count c := by
    intro c
    rw [List.count, List.countP_map]
    rfl
  simp only [hcount]
  rw [List.sum_map_count_dedup_eq_length, List.length_map]

/-- The empty search string matches any string (empty pattern). -/
theorem containsCI_empty (s : String) : containsCI s "" = true := by
  unfold containsCI listContains
  have hd : (toLowerStr "").data = [] := rfl
  rw [hd]
  rw [List.any_eq_true]
  refine ⟨0, ?_, ?_⟩
  · simp
  · simp [List.isPrefixOf]

/-- Matching a metacharacter-free pattern prefix-wise is the literal
`isPrefixOf` test: without the `.` wildcard each pattern character must
equal the text character. -/
theorem regexMatchAt_eq_isPrefixOf (ps cs : List Char)
    (h : ('.' : Char) ∉ ps) : regexMatchAt ps cs = ps.isPrefixOf cs := by
  induction ps generalizing cs with
  | nil => cases cs <;> rfl
  | cons p ps ih =>
    have hp : p ≠ '.' := by
      intro hpe
      subst hpe
      exact h (List.mem_cons_self _ _)
    have hps : ('.' : Char) ∉ ps := fun hin => h (List.mem_cons_of_mem _ hin)
    cases cs with
    | nil => rfl
    | cons c cs =>
      show (regexCharMatches p c && regexMatchAt ps cs) =
        (p == c && ps.isPrefixOf cs)
      rw [ih cs hps]
      unfold regexCharMatches
      rw [if_neg hp]

/-- On metacharacter-free patterns the unanchored regex search is literal
substring search. -/
theorem regexTest_eq_listContains (pattern str : List Char)
    (h : ('.' : Char) ∉ pattern) :
    regexTest pattern str = listContains str pattern := by
  unfold regexTest listContains
  congr 1
  funext i
  rw [regexMatchAt_eq_isPrefixOf _ _ h]

/-- On metacharacter-free search strings the code's case-insensitive regex
test is exactly the spec's case-insensitive substring containment. -/
theorem regexTestCI_eq_containsCI (hay search : String)
    (h : regexMetaFree search = true) :
    regexTestCI hay search = containsCI hay search := by
  unfold regexTestCI containsCI
  apply regexTest_eq_listContains
  intro hdot
  unfold regexMetaFree at h
  rw [List.all_eq_true] at h
  exact absurd (h _ hdot) (by decide)

/-- The empty pattern tests true against any string. -/
theorem regexTestCI_empty (s : String) : regexTestCI s "" = true := by
  unfold regexTestCI regexTest
  rw [show (toLowerStr "").data = [] from rfl]
  rw [List.any_eq_true]
  exact ⟨0, by simp, rfl⟩

/-- The empty search string matches every record. -/
theorem matchesSearch_empty (t : Transaction) : matchesSearch "" t = true := by
  unfold matchesSearch
  rw [regexTestCI_empty]
  rfl

/-- `parseFloat` parses the literal search string "150" to the number 150. -/
theorem parseFloat_150 : parseFloat "150" = some 150 := by
  rw [show parseFloat "150"
      = some (1 * (((150 : Nat) : Rat) + ((0 : Nat) : Rat) / 10 ^ (0 : Nat)) *
        (10 : Rat) ^ (0 : Int))
    from rfl]
  simp only [Option.some.injEq]
  norm_num

/-- `parseFloat` skips leading whitespace as JS does. -/
theorem parseFloat_ws_150 : parseFloat " 150" = some 150 := by
  rw [show parseFloat " 150"
      = some (1 * (((150 : Nat) : Rat) + ((0 : Nat) : Rat) / 10 ^ (0 : Nat)) *
        (10 : Rat) ^ (0 : Int))
    from rfl]
  simp only [Option.some.injEq]
  norm_num

/-- `parseFloat` handles exponent notation as JS does. -/
theorem parseFloat_exp_1e3 : parseFloat "1e3" = some 1000 := by
  rw [show parseFloat "1e3"
      = some (1 * (((1 : Nat) : Rat) + ((0 : Nat) : Rat) / 10 ^ (0 : Nat)) *
        (10 : Rat) ^ (3 : Int))
    from rfl]
  simp only [Option.some.injEq]
  norm_num

/-- A month with a nonzero index passes the falsy guard. -/
theorem guard_false_of (s : String) (idx : Nat) (hm : monthMap s = some idx)
    (hnz : idx ≠ 0) : monthGuardRejects s = false := by
  unfold monthGuardRejects
  rw [hm]
  simpa using hnz

/-- The aggregate read-back `totalSales[0]?.total || 0` equals the plain sum
of the (present) prices over the matched records. -/
theorem statsQueries_totalSales (s e : DateTime) (db : List Transaction) :
    (statsQueries s e db).totalSales =
      ((db.filter fun t => inDateRange s e t.dateOfSale).map
        fun t => t.price.getD 0).sum := by
  simp only [statsQueries]
  by_cases hemp : (db.filter fun t => inDateRange s e t.dateOfSale).isEmpty
  · rw [List.isEmpty_iff] at hemp
    simp [hemp]
  · simp [hemp]

/-- Inversion of a successful statistics response: the month passed the
guard and the response is the result of the statistics queries over the
month's date range. -/
theorem statisticsHandler_ok_elim (name : String) (y : Int)
    (db : List Transaction) (st : Stats)
    (hs : statisticsHandler name y db = Except.ok st) :
    ∃ idx, monthMap (toLowerStr name) = some idx ∧ idx ≠ 0 ∧
      st = statsQueries ⟨y, idx, 1, 0⟩ ⟨y, idx, daysInMonth y idx, 0⟩ db := by
  unfold statisticsHandler at hs
  by_cases hg : monthGuardRejects (toLowerStr name) = true
  · rw [if_pos hg] at hs
    exact Except.noConfusion hs
  · rw [if_neg hg] at hs
    obtain ⟨idx, hm, hnz⟩ := guard_passes _ (Bool.not_eq_true _ ▸ hg)
    rw [getStartEndDate_eq _ _ _ hm] at hs
    refine ⟨idx, hm, hnz, ?_⟩
    injection hs with hs
    exact hs.symm

/-- Inversion of a successful bar-chart response. -/
theorem barChartHandler_ok_elim (name : String) (y : Int)
    (db : List Transaction) (buckets : List (String × Nat))
    (hb : barChartHandler name y db = Except.ok buckets) :
    ∃ idx, monthMap (toLowerStr name) = some idx ∧ idx ≠ 0 ∧
      buckets =
        barChartQueries ⟨y, idx, 1, 0⟩ ⟨y, idx, daysInMonth y idx, 0⟩ db := by
  unfold barChartHandler at hb
  by_cases hg : monthGuardRejects (toLowerStr name) = true
  · rw [if_pos hg] at hb
    exact Except.noConfusion hb
  · rw [if_neg hg] at hb
    obtain ⟨idx, hm, hnz⟩ := guard_passes _ (Bool.not_eq_true _ ▸ hg)
    rw [getStartEndDate_eq _ _ _ hm] at hb
    refine ⟨idx, hm, hnz, ?_⟩
    injection hb with hb
    exact hb.symm

/-- Inversion of a successful pie-chart response. -/
theorem pieChartHandler_ok_elim (name : String) (y : Int)
    (db : List Transaction) (cats : List (String × Nat))
    (hp : pieChartHandler name y db = Except.ok cats) :
    ∃ idx, monthMap (toLowerStr name) = some idx ∧ idx ≠ 0 ∧
      cats =
        pieChartQueries ⟨y, idx, 1, 0⟩ ⟨y, idx, daysInMonth y idx, 0⟩ db := by
  unfold pieChartHandler at hp
  by_cases hg : monthGuardRejects (toLowerStr name) = true
  · rw [if_pos hg] at hp
    exact Except.noConfusion hp
  · rw [if_neg hg] at hp
    obtain ⟨idx, hm, hnz⟩ := guard_passes _ (Bool.not_eq_true _ ▸ hg)
    rw [getStartEndDate_eq _ _ _ hm] at hp
    refine ⟨idx, hm, hnz, ?_⟩
    injection hp with hp
    exact hp.symm

/-- The initial bucket counts are all zero (at any position). -/
theorem initial_snd_getD (j : Nat) :
    ((initialPriceRanges.map Prod.snd)).getD j 0 = 0 := by
  show ([0, 0, 0, 0, 0, 0, 0, 0, 0, 0] : List Nat).getD j 0 = 0
  rcases j with _ | _ | _ | _ | _ | _ | _ | _ | _ | _ | j <;> rfl

/-! Claim theorems. -/

/-- Claim C1: the claim states that a month-scoped operation reports the
invalid-month condition exactly when the lowercased name is not one of the
twelve month names, january included.  The code violates this: its own
`monthMap` maps "january" to index 0, but the guard `!monthMap[month]`
treats the value 0 as falsy, so every month-scoped endpoint reports
"Invalid month" for january, just as for the genuinely unknown name "foo". -/
theorem c1_january_rejected_by_guard :
    monthMap "january" = some 0 ∧
    monthGuardRejects (toLowerStr "January") = true ∧
    statisticsHandler "January" 2025 exampleDb = Except.error "Invalid month" ∧
    barChartHandler "January" 2025 exampleDb = Except.error "Invalid month" ∧
    pieChartHandler "January" 2025 exampleDb = Except.error "Invalid month" ∧
    combinedHandler "January" 2025 exampleDb = Except.error "Invalid month" ∧
    monthMap "foo" = none ∧
    statisticsHandler "foo" 2025 exampleDb = Except.error "Invalid month" :=
  ⟨rfl, rfl, rfl, rfl, rfl, rfl, rfl, rfl⟩

/-- Claim C2 counterexample: for the valid month "march" of year 2025 the
code produces endDate = March 31 at 00:00:00, and the instant March 31 at
00:00:00.001 — which lies on a calendar day of March — falls outside
`[startDate, endDate]`, so the interval does not contain every record whose
`dateOfSale` lies on a day of the month. -/
theorem c2_counterexample_last_day :
    getStartEndDate "march" 2025 =
      some (⟨2025, 2, 1, 0⟩, ⟨2025, 2, 31, 0⟩) ∧
    inDateRange ⟨2025, 2, 1, 0⟩ ⟨2025, 2, 31, 0⟩ ⟨2025, 2, 31, 1⟩ = false :=
  ⟨rfl, rfl⟩

/-- Claim C2 amended: for every month name in the map, `getStartEndDate`
returns startDate = first day of the month at 00:00:00 and endDate = last
day of the same month of the same year at 00:00:00; the interval
`[startDate, endDate]` contains exactly the instants of that month of that
year whose day is in range and which, on the last day, are exactly
midnight — in particular no instant of another month, and no instant of the
last day after midnight, is inside. -/
theorem c2_amended_month_interval (name : String) (y : Int) (idx : Nat)
    (h : monthMap (toLowerStr name) = some idx) :
    getStartEndDate (toLowerStr name) y =
      some (⟨y, idx, 1, 0⟩, ⟨y, idx, daysInMonth y idx, 0⟩) ∧
    ∀ d : DateTime,
      inDateRange ⟨y, idx, 1, 0⟩ ⟨y, idx, daysInMonth y idx, 0⟩ d = true ↔
        (d.year = y ∧ d.month = idx ∧ 1 ≤ d.day ∧ d.day ≤ daysInMonth y idx ∧
          (d.day = daysInMonth y idx → d.msOfDay = 0)) :=
  ⟨getStartEndDate_eq _ _ _ h,
   fun d => inDateRange_iff y idx (daysInMonth y idx) d⟩

/-- Witness for the amended C2 theorem at the month "March", year 2025: the
computed bounds are March 1 and March 31 at midnight, and noon of March 15
lies inside the interval. -/
theorem c2_amended_month_interval_witness :
    getStartEndDate (toLowerStr "March") 2025 =
      some (⟨2025, 2, 1, 0⟩, ⟨2025, 2, 31, 0⟩) ∧
    inDateRange ⟨2025, 2, 1, 0⟩ ⟨2025, 2, 31, 0⟩ ⟨2025, 2, 15, 43200000⟩ =
      true :=
  ⟨(c2_amended_month_interval "March" 2025 2 rfl).1,
   ((c2_amended_month_interval "March" 2025 2 rfl).2
      ⟨2025, 2, 15, 43200000⟩).mpr (by decide)⟩

/-- Claim C8: in the startup promise chain of `server.js`, the HTTP
listener is started exactly when the initial store connection succeeds; in
particular a failed connection produces only the connection attempt and the
error log, never a listen. -/
theorem c8_listen_only_after_connect (connectOk : Bool) :
    (StartupEvent.listen ∈ startupTrace connectOk ↔ connectOk = true) ∧
    startupTrace false = [StartupEvent.connectAttempt, StartupEvent.logError] := by
  cases connectOk <;> exact ⟨by decide, rfl⟩

/-- Claim C9: the first bar-chart bucket "0-100" has no lower bound — the
if/else chain sends a price to bucket 0 exactly when it is at most 100, so
a negative price such as -1 is tallied in the "0-100" bucket. -/
theorem c9_first_bucket_unbounded_below :
    (∀ p : Rat, bucketIndex (some p) = 0 ↔ p ≤ 100) ∧
    bucketIndex (some (-1)) = 0 ∧
    tallyPrices [⟨"t", "d", some (-1), ⟨2025, 0, 5, 0⟩, "c"⟩] =
      [("0-100", 1), ("101-200", 0), ("201-300", 0), ("301-400", 0),
       ("401-500", 0), ("501-600", 0), ("601-700", 0), ("701-800", 0),
       ("801-900", 0), ("901-above", 0)] := by
  refine ⟨fun p => ?_, rfl, rfl⟩
  simp only [bucketIndex]
  split_ifs with h1 h2 h3 h4 h5 h6 h7 h8 h9 <;> simp_all

/-- Claim C3 counterexample: "january" is a valid month name (the source's
`monthMap` maps it to index 0), yet the bar-chart endpoint does not return
the ten buckets for it — the falsy guard reports "Invalid month" instead. -/
theorem c3_counterexample_january :
    monthMap "january" = some 0 ∧
    barChartHandler "january" 2025 exampleDb = Except.error "Invalid month" :=
  ⟨rfl, rfl⟩

/-- Claim C3 amended (restricted to the month names the code's validation
accepts, i.e. every valid month except january): a successful bar-chart
response consists of the ten fixed buckets in order "0-100" … "901-above";
bucket `j` counts exactly the in-range records whose price falls in bucket
`j`; the counts sum to the number of records in `[startDate, endDate]`; and
the boundaries are upper-inclusive: price 100 is in bucket "0-100", price
101 in bucket "101-200". -/
theorem c3_amended_barChart (name : String) (y : Int) (db : List Transaction)
    (idx : Nat) (buckets : List (String × Nat))
    (hm : monthMap (toLowerStr name) = some idx) (hnz : idx ≠ 0)
    (hb : barChartHandler name y db = Except.ok buckets) :
    buckets.map Prod.fst = bucketLabels ∧
    buckets.length = 10 ∧
    (∀ j, j < 10 → (buckets.map Prod.snd).getD j 0 =
      (db.filter fun t =>
        inDateRange ⟨y, idx, 1, 0⟩ ⟨y, idx, daysInMonth y idx, 0⟩
          t.dateOfSale).countP fun t => bucketIndex t.price == j) ∧
    (buckets.map Prod.snd).sum =
      (db.filter fun t =>
        inDateRange ⟨y, idx, 1, 0⟩ ⟨y, idx, daysInMonth y idx, 0⟩
          t.dateOfSale).length ∧
    bucketIndex (some 100) = 0 ∧ bucketIndex (some 101) = 1 := by
  obtain ⟨idx2, hm2, hnz2, hbq⟩ := barChartHandler_ok_elim name y db buckets hb
  rw [hm] at hm2
  injection hm2 with hm2
  subst hm2
  subst hbq
  unfold barChartQueries tallyPrices
  refine ⟨?_, ?_, ?_, ?_, rfl, rfl⟩
  · rw [tally_fold_fst]
    rfl
  · rw [tally_fold_length]
    rfl
  · intro j hj
    rw [tally_fold_getD _ initialPriceRanges _ rfl, initial_snd_getD,
      Nat.zero_add]
  · rw [tally_fold_sum _ initialPriceRanges rfl,
      show (initialPriceRanges.map Prod.snd).sum = 0 from rfl, Nat.zero_add]

/-- Witness for the amended C3 theorem: the March 2025 bar chart over the
example store has the fixed labels, its last bucket counts exactly the
in-range records priced above 900 (or with no price), and its counts sum to
the number of in-range records. -/
theorem c3_amended_barChart_witness :
    (barChartQueries ⟨2025, 2, 1, 0⟩ ⟨2025, 2, 31, 0⟩ exampleDb).map Prod.fst
      = bucketLabels ∧
    ((barChartQueries ⟨2025, 2, 1, 0⟩ ⟨2025, 2, 31, 0⟩ exampleDb).map
      Prod.snd).getD 9 0 =
      (exampleDb.filter fun t =>
        inDateRange ⟨2025, 2, 1, 0⟩ ⟨2025, 2, 31, 0⟩ t.dateOfSale).countP
        (fun t => bucketIndex t.price == 9) ∧
    ((barChartQueries ⟨2025, 2, 1, 0⟩ ⟨2025, 2, 31, 0⟩ exampleDb).map
      Prod.snd).sum =
      (exampleDb.filter fun t =>
        inDateRange ⟨2025, 2, 1, 0⟩ ⟨2025, 2, 31, 0⟩ t.dateOfSale).length :=
  ⟨(c3_amended_barChart "march" 2025 exampleDb 2
      (barChartQueries ⟨2025, 2, 1, 0⟩ ⟨2025, 2, 31, 0⟩ exampleDb)
      rfl (by decide) rfl).1,
   (c3_amended_barChart "march" 2025 exampleDb 2
      (barChartQueries ⟨2025, 2, 1, 0⟩ ⟨2025, 2, 31, 0⟩ exampleDb)
      rfl (by decide) rfl).2.2.1 9 (by decide),
   (c3_amended_barChart "march" 2025 exampleDb 2
      (barChartQueries ⟨2025, 2, 1, 0⟩ ⟨2025, 2, 31, 0⟩ exampleDb)
      rfl (by decide) rfl).2.2.2.1⟩

/-- Claim C4 counterexample: "january" is a valid month name, yet the
statistics endpoint reports "Invalid month" for it (falsy index 0) even
when the store holds a january record. -/
theorem c4_counterexample_january :
    monthMap "january" = some 0 ∧
    statisticsHandler "january" 2025
      [⟨"a", "b", some 10, ⟨2025, 0, 5, 0⟩, "c"⟩] =
      Except.error "Invalid month" :=
  ⟨rfl, rfl⟩

/-- Claim C4 amended (restricted to the month names the code's validation
accepts, i.e. every valid month except january): a successful statistics
response has soldItems = the number of records with dateOfSale in
`[startDate, endDate]`, totalSales = the sum of the prices of those records
(0 when none match), and notSoldItems = the number of records dated
strictly before startDate. -/
theorem c4_amended_statistics (name : String) (y : Int)
    (db : List Transaction) (idx : Nat) (st : Stats)
    (hm : monthMap (toLowerStr name) = some idx) (hnz : idx ≠ 0)
    (hs : statisticsHandler name y db = Except.ok st) :
    st.soldItems = db.countP (fun t =>
      inDateRange ⟨y, idx, 1, 0⟩ ⟨y, idx, daysInMonth y idx, 0⟩
        t.dateOfSale) ∧
    st.totalSales = ((db.filter fun t =>
      inDateRange ⟨y, idx, 1, 0⟩ ⟨y, idx, daysInMonth y idx, 0⟩
        t.dateOfSale).map fun t => t.price.getD 0).sum ∧
    st.notSoldItems = db.countP fun t =>
      DateTime.ltb t.dateOfSale ⟨y, idx, 1, 0⟩ := by
  obtain ⟨idx2, hm2, hnz2, hst⟩ := statisticsHandler_ok_elim name y db st hs
  rw [hm] at hm2
  injection hm2 with hm2
  subst hm2
  subst hst
  exact ⟨rfl, statsQueries_totalSales _ _ _, rfl⟩

/-- Witness for the amended C4 theorem at March 2025 over the example
store. -/
theorem c4_amended_statistics_witness :
    (statsQueries ⟨2025, 2, 1, 0⟩ ⟨2025, 2, 31, 0⟩ exampleDb).soldItems =
      exampleDb.countP (fun t =>
        inDateRange ⟨2025, 2, 1, 0⟩ ⟨2025, 2, 31, 0⟩ t.dateOfSale) ∧
    (statsQueries ⟨2025, 2, 1, 0⟩ ⟨2025, 2, 31, 0⟩ exampleDb).totalSales =
      ((exampleDb.filter fun t =>
        inDateRange ⟨2025, 2, 1, 0⟩ ⟨2025, 2, 31, 0⟩ t.dateOfSale).map
          fun t => t.price.getD 0).sum ∧
    (statsQueries ⟨2025, 2, 1, 0⟩ ⟨2025, 2, 31, 0⟩ exampleDb).notSoldItems =
      exampleDb.countP fun t =>
        DateTime.ltb t.dateOfSale ⟨2025, 2, 1, 0⟩ :=
  c4_amended_statistics "march" 2025 exampleDb 2
    (statsQueries ⟨2025, 2, 1, 0⟩ ⟨2025, 2, 31, 0⟩ exampleDb)
    rfl (by decide) rfl

/-- Claim C5 counterexample: the claim's iff fails on a search string that
is a regex metacharacter.  The code builds `new RegExp(search, 'i')`, so
the search "." matches a record titled "ab" (the `.` wildcard matches any
character), while none of the claimed conditions holds for it: "ab" and
"cd" contain no "." and parseFloat(".") is NaN. -/
theorem c5_counterexample_dot_regex :
    matchesSearch "." ⟨"ab", "cd", some 5, ⟨2025, 2, 5, 0⟩, "x"⟩ = true ∧
    containsCI "ab" "." = false ∧
    containsCI "cd" "." = false ∧
    parseFloat "." = none :=
  ⟨rfl, rfl, rfl, rfl⟩

/-- Claim C5 amended (restricted to search strings free of regex
metacharacters, where the regex the code builds is a literal matcher;
regex-special searches such as "." follow regex semantics instead): the
predicate matches a record iff at least one of the following holds (logical
OR, not AND): the title contains the search string case-insensitively, the
description contains it case-insensitively, or — when the search is
non-empty — the price equals parseFloat(search); when the search is empty
the price branch matches every record with a price field.  parseFloat
follows JS in skipping leading whitespace and reading exponent notation,
and search "150" matches records priced exactly 150 regardless of their
text fields. -/
theorem c5_amended_search_predicate :
    (∀ search t, regexMetaFree search = true →
      (matchesSearch search t = true ↔
        (containsCI t.title search = true ∨
         containsCI t.description search = true ∨
         (search ≠ "" ∧ ∃ q, parseFloat search = some q ∧ t.price = some q) ∨
         (search = "" ∧ t.price.isSome = true)))) ∧
    parseFloat "150" = some 150 ∧
    parseFloat " 150" = some 150 ∧
    parseFloat "1e3" = some 1000 ∧
    (∀ t, t.price = some 150 → matchesSearch "150" t = true) := by
  refine ⟨fun search t hmf => ?_, parseFloat_150, parseFloat_ws_150,
    parseFloat_exp_1e3, fun t ht => ?_⟩
  · unfold matchesSearch
    rw [regexTestCI_eq_containsCI t.title search hmf,
      regexTestCI_eq_containsCI t.description search hmf]
    by_cases hs : search = ""
    · subst hs
      simp [containsCI_empty]
    · rw [if_pos hs]
      cases hp : parseFloat search with
      | none => simp [hs, hp]
      | some q => simp [hs, hp, or_assoc]
  · show (regexTestCI t.title "150" || regexTestCI t.description "150" ||
      (match parseFloat "150" with
        | some q => t.price == some q
        | none => false)) = true
    rw [parseFloat_150, ht]
    simp

/-- Witness for the amended C5 theorem: the metacharacter-free search "cup"
matches a record through its description, and a record priced 150 whose
text fields do not contain "150" is matched by the search "150". -/
theorem c5_amended_search_predicate_witness :
    matchesSearch "cup"
      ⟨"Mug", "ceramic cup", some 50, ⟨2025, 2, 10, 3600000⟩, "kitchen"⟩ =
      true ∧
    matchesSearch "150"
      ⟨"Lamp", "desk lamp", some 150, ⟨2025, 2, 20, 0⟩, "home"⟩ = true :=
  ⟨(c5_amended_search_predicate.1 "cup"
      ⟨"Mug", "ceramic cup", some 50, ⟨2025, 2, 10, 3600000⟩, "kitchen"⟩
      (by decide)).mpr
    (Or.inr (Or.inl (by decide))),
   c5_amended_search_predicate.2.2.2.2
    ⟨"Lamp", "desk lamp", some 150, ⟨2025, 2, 20, 0⟩, "home"⟩ rfl⟩

/-- Claim C6: `listTransactions` returns the slice of predicate-matching
records obtained by skipping `(page - 1) * perPage` of them and taking at
most `perPage`, together with the total count of ALL matching records; and
with the defaults page 1, perPage 10, empty search it returns at most ten
records with total equal to the full store size (the empty search matches
every record). -/
theorem c6_pagination_slice :
    (∀ page perPage search db, 1 ≤ page →
      (listTransactions page perPage search db).transactions =
        ((db.filter (matchesSearch search)).drop ((page - 1) * perPage)).take
          perPage ∧
      (listTransactions page perPage search db).total =
        (db.filter (matchesSearch search)).length) ∧
    (∀ db, (listTransactions 1 10 "" db).transactions.length ≤ 10 ∧
      (listTransactions 1 10 "" db).total = db.length) := by
  constructor
  · intro page perPage search db hp
    exact ⟨rfl, rfl⟩
  · intro db
    have hall : db.filter (matchesSearch "") = db :=
      List.filter_eq_self.mpr fun t ht => matchesSearch_empty t
    constructor
    · show (((db.filter (matchesSearch "")).drop 0).take 10).length ≤ 10
      rw [List.length_take]
      omega
    · show (db.filter (matchesSearch "")).length = db.length
      rw [hall]

/-- Witness for the C6 theorem: page 2 of size 2 for the search "a" over
the example store, and the default call over the example store. -/
theorem c6_pagination_slice_witness :
    (listTransactions 2 2 "a" exampleDb).transactions =
      ((exampleDb.filter (matchesSearch "a")).drop ((2 - 1) * 2)).take 2 ∧
    (listTransactions 2 2 "a" exampleDb).total =
      (exampleDb.filter (matchesSearch "a")).length :=
  c6_pagination_slice.1 2 2 "a" exampleDb (by decide)

/-- Claim C7: the combined endpoint agrees with the three stand-alone
endpoints invoked independently for the same month and store: when all
three succeed it returns exactly their three results, and when any of them
fails (all four share the same month guard) the combined response fails the
same way. -/
theorem c7_combined_equals_independent (name : String) (y : Int)
    (db : List Transaction) :
    combinedHandler name y db =
      match statisticsHandler name y db, barChartHandler name y db,
            pieChartHandler name y db with
      | Except.ok st, Except.ok bc, Except.ok pc =>
          Except.ok { statistics := st, barChart := bc, pieChart := pc }
      | Except.error msg, _, _ => Except.error msg
      | _, Except.error msg, _ => Except.error msg
      | _, _, Except.error msg => Except.error msg := by
  unfold combinedHandler statisticsHandler barChartHandler pieChartHandler
    getStatistics getBarChart getPieChart
  by_cases hg : monthGuardRejects (toLowerStr name) = true
  · rw [if_pos hg, if_pos hg, if_pos hg, if_pos hg]
  · rw [if_neg hg, if_neg hg, if_neg hg, if_neg hg]
    obtain ⟨idx, hm, hnz⟩ := guard_passes _ (Bool.not_eq_true _ ▸ hg)
    rw [getStartEndDate_eq _ _ _ hm]
    rfl

/-- Claim C10: whenever the three monthly aggregations all answer for the
same month over the same store, they agree on the population size — the pie
chart category counts and the bar chart bucket counts both sum to the
soldItems count of the statistics response, because all three select
records by the same date-range condition. -/
theorem c10_population_sizes_agree (name : String) (y : Int)
    (db : List Transaction) (st : Stats) (buckets cats : List (String × Nat))
    (hs : statisticsHandler name y db = Except.ok st)
    (hb : barChartHandler name y db = Except.ok buckets)
    (hp : pieChartHandler name y db = Except.ok cats) :
    (cats.map Prod.snd).sum = (buckets.map Prod.snd).sum ∧
    (buckets.map Prod.snd).sum = st.soldItems := by
  obtain ⟨i1, hm1, hnz1, hst⟩ := statisticsHandler_ok_elim name y db st hs
  obtain ⟨i2, hm2, hnz2, hbq⟩ := barChartHandler_ok_elim name y db buckets hb
  obtain ⟨i3, hm3, hnz3, hpq⟩ := pieChartHandler_ok_elim name y db cats hp
  rw [hm1] at hm2 hm3
  injection hm2 with hm2
  injection hm3 with hm3
  subst hm2
  subst hm3
  subst hst
  subst hbq
  subst hpq
  have hbar : ((barChartQueries ⟨y, i1, 1, 0⟩
      ⟨y, i1, daysInMonth y i1, 0⟩ db).map Prod.snd).sum =
      (db.filter fun t =>
        inDateRange ⟨y, i1, 1, 0⟩ ⟨y, i1, daysInMonth y i1, 0⟩
          t.dateOfSale).length := by
    unfold barChartQueries tallyPrices
    rw [tally_fold_sum _ initialPriceRanges rfl,
      show (initialPriceRanges.map Prod.snd).sum = 0 from rfl, Nat.zero_add]
  constructor
  · rw [hbar]
    unfold pieChartQueries
    rw [groupByCategory_sum]
  · rw [hbar]
    show _ = db.countP fun t =>
      inDateRange ⟨y, i1, 1, 0⟩ ⟨y, i1, daysInMonth y i1, 0⟩ t.dateOfSale
    exact (List.countP_eq_length_filter _ _).symm

/-- Witness for the C10 theorem at March 2025 over the example store. -/
theorem c10_population_sizes_agree_witness :
    ((pieChartQueries ⟨2025, 2, 1, 0⟩ ⟨2025, 2, 31, 0⟩ exampleDb).map
      Prod.snd).sum =
      ((barChartQueries ⟨2025, 2, 1, 0⟩ ⟨2025, 2, 31, 0⟩ exampleDb).map
        Prod.snd).sum ∧
    ((barChartQueries ⟨2025, 2, 1, 0⟩ ⟨2025, 2, 31, 0⟩ exampleDb).map
      Prod.snd).sum =
      (statsQueries ⟨2025, 2, 1, 0⟩ ⟨2025, 2, 31, 0⟩ exampleDb).soldItems :=
  c10_population_sizes_agree "march" 2025 exampleDb
    (statsQueries ⟨2025, 2, 1, 0⟩ ⟨2025, 2, 31, 0⟩ exampleDb)
    (barChartQueries ⟨2025, 2, 1, 0⟩ ⟨2025, 2, 31, 0⟩ exampleDb)
    (pieChartQueries ⟨2025, 2, 1, 0⟩ ⟨2025, 2, 31, 0⟩ exampleDb)
    rfl rfl rfl
